import Mathlib

/-!
Verification development for the credential-rotation / multi-model annotation
pipeline.  The Python sources are embedded shallowly:

* `utils/api_utils.py` → `ApiKeyManager`, `rotateKey`, `getCurrentKey`,
  `loadKeysFromEnv` (environment access is modelled as a lookup function,
  the unbounded `while True` loop as a fuelled recursion);
* `api/openrouter.py` → `makeRequest` (the network is modelled as an oracle
  assigning a response to every attempt index), `extractJsonFromContent`
  (with a JSON parser standing in for `json.loads`);
* `processors/sentiment.py` → `analyzeWithAI`, `extractKeywords`,
  `processUnprocessedContent` (the database is a pair of in-memory lists,
  NLTK tokenisation is a parameter).

Timestamps and scores are rationals; Python dicts keyed by strings become
association lists in insertion order.
-/

/- ------------------------------------------------------------------ -/
/- String constants of the source.                                     -/
/- ------------------------------------------------------------------ -/

/-- The `reason` value `"rate_limit"` recognised by `rotate_key`. -/
def rateLimitReason : String := "rate_limit"

/-- The empty string (used as the default of `headD`; the source's
`api_keys[0]` is only read on a non-empty deque). -/
def emptyString : String := ""

/-- The language tag `"en"` accepted by the fetch query. -/
def langEn : String := "en"

/-- The language tag `"unknown"` accepted by the fetch query. -/
def langUnknown : String := "unknown"

/- ------------------------------------------------------------------ -/
/- Association-list operations mirroring Python `dict` semantics:      -/
/- insertion keeps first-seen order, overwriting updates in place.     -/
/- ------------------------------------------------------------------ -/

/-- Lookup in an association list (Python `d[k]` / `k in d`). -/
def dictLookup (d : List (String × ℚ)) (k : String) : Option ℚ :=
  (d.find? (fun p => p.1 = k)).map (fun p => p.2)

/-- Insert or overwrite a binding (Python `d[k] = v`). -/
def dictInsert (d : List (String × ℚ)) (k : String) (v : ℚ) : List (String × ℚ) :=
  if d.any (fun p => p.1 = k) then
    d.map (fun p => if p.1 = k then (k, v) else p)
  else
    d ++ [(k, v)]

/-- Remove a binding if present (Python `del d[k]`, guarded by `k in d`). -/
def dictErase (d : List (String × ℚ)) (k : String) : List (String × ℚ) :=
  d.filter (fun p => p.1 ≠ k)

/- ------------------------------------------------------------------ -/
/- utils/api_utils.py : ApiKeyManager                                  -/
/- ------------------------------------------------------------------ -/

/-- State of `ApiKeyManager`.  `apiKeys` is the deque (front = `api_keys[0]`),
`currentKey` the `current_key` attribute, `rateLimited` the
`rate_limited_keys` dict mapping a key to the absolute time its cooldown
ends. -/
structure ApiKeyManager where
  cooldownSeconds : ℚ
  apiKeys : List String
  currentKey : String
  rateLimited : List (String × ℚ)
deriving Repr, DecidableEq

/-- `mark_rate_limited`: set `cooldown_until = now + cooldown_seconds`.
`t` is the value of `time.time()`. -/
def markRateLimited (t : ℚ) (key : String) (m : ApiKeyManager) : ApiKeyManager :=
  { m with rateLimited := dictInsert m.rateLimited key (t + m.cooldownSeconds) }

/-- A key is in cooldown at time `t` when the dict holds an expiry strictly
beyond `t` (the source compares `current_time < self.rate_limited_keys[key]`). -/
def isCoolingDown (t : ℚ) (m : ApiKeyManager) (key : String) : Bool :=
  match dictLookup m.rateLimited key with
  | some expiry => decide (t < expiry)
  | none => false

/-- Body of `rotate_key`, with an explicit recursion fuel.  The Python
recursion (`return self.rotate_key()` when the freshly selected key is still
cooling) has no bound of its own and diverges at fixed time when every key is
cooling; `rotateKey` below supplies fuel `apiKeys.length`, which the C1
theorem proves sufficient whenever some key is free. -/
def rotateKeyAux (t : ℚ) : Nat → Option String → ApiKeyManager → String × ApiKeyManager
  | 0, _, m => (m.currentKey, m)
  | fuel + 1, reason, m =>
    -- if reason == "rate_limit": mark the current key
    let m1 := if reason = some rateLimitReason then markRateLimited t m.currentKey m else m
    -- single-key pool: clear the cooldown and return without rotating
    if m1.apiKeys.length = 1 then
      (m1.currentKey, { m1 with rateLimited := dictErase m1.rateLimited m1.currentKey })
    else
      -- self.api_keys.rotate(-1); self.current_key = self.api_keys[0]
      let keys := m1.apiKeys.rotate 1
      let m2 := { m1 with apiKeys := keys, currentKey := keys.headD emptyString }
      match dictLookup m2.rateLimited m2.currentKey with
      | some expiry =>
        if t < expiry then
          rotateKeyAux t fuel none m2        -- recursively try the next key
        else
          (m2.currentKey, { m2 with rateLimited := dictErase m2.rateLimited m2.currentKey })
      | none => (m2.currentKey, m2)

/-- `rotate_key(reason)` at time `t`. -/
def rotateKey (t : ℚ) (reason : Option String) (m : ApiKeyManager) : String × ApiKeyManager :=
  rotateKeyAux t m.apiKeys.length reason m

/-- `get_current_key`: rotate first when the current key is still cooling. -/
def getCurrentKey (t : ℚ) (m : ApiKeyManager) : String × ApiKeyManager :=
  if isCoolingDown t m m.currentKey then
    let r := rotateKey t none m
    (r.2.currentKey, r.2)
  else
    (m.currentKey, m)

/- ------------------------------------------------------------------ -/
/- utils/api_utils.py : _load_keys_from_env                            -/
/- ------------------------------------------------------------------ -/

/-- Python truthiness of `os.environ.get(...)`: `None` (unset) and the empty
string are falsy. -/
def envTruthy : Option String → Bool
  | none => false
  | some s => s ≠ emptyString

/-- The `while True` loop of `_load_keys_from_env`, reading `PREFIX_i` for
`i = start, start+1, ...` and stopping at the first falsy value.  `env i`
models `os.environ.get(f"{prefix}_{i}")`; the unbounded loop is given an
explicit fuel. -/
def loadIndexedKeys (env : Nat → Option String) : Nat → Nat → List String
  | _, 0 => []
  | i, fuel + 1 =>
    if envTruthy (env i) then
      (env i).getD emptyString :: loadIndexedKeys env (i + 1) fuel
    else
      []

/-- `_load_keys_from_env`: the unindexed key first (when truthy), then the
indexed keys starting at index 1. -/
def loadKeysFromEnv (mainKey : Option String) (env : Nat → Option String)
    (fuel : Nat) : List String :=
  (if envTruthy mainKey then [mainKey.getD emptyString] else []) ++ loadIndexedKeys env 1 fuel

/-- A sample key value for concrete environments. -/
def sampleKey : String := "k2"

/-- Another sample key value. -/
def sampleKey2 : String := "key"

/-- A sample value for the unindexed environment variable. -/
def sampleMain : String := "m"

/-- Concrete environment refuting C10's reading: `PREFIX` and `PREFIX_1` are
set to the empty string, `PREFIX_2` holds a key, nothing else is set. -/
def c10Env : Nat → Option String :=
  fun i => if i = 1 then some emptyString else if i = 2 then some sampleKey else none

/-- Concrete environment for the witness: `PREFIX_1` and `PREFIX_2` set,
everything above unset. -/
def c10WitnessEnv : Nat → Option String :=
  fun i => if i = 1 ∨ i = 2 then some sampleKey2 else none

/- ------------------------------------------------------------------ -/
/- api/openrouter.py : OpenRouterAPI._make_request                     -/
/- ------------------------------------------------------------------ -/

/-- One attempt's outcome as seen by `_make_request`.  `ok status bodyCode
body` models a completed HTTP exchange: `status` is `response.status`,
`bodyCode` the optional `code` field of the JSON body, `body` an opaque
payload returned on success.  `exc` models a raised exception inside the
`try` block. -/
inductive ApiResponse (β : Type) where
  | ok (status : Nat) (bodyCode : Option Nat) (body : β)
  | exc
deriving Repr, DecidableEq

/-- An attempt succeeds when the status is 200 and neither the status nor the
body signals a 429 (the source checks the rate-limit condition first). -/
def isSuccessResp {β : Type} : ApiResponse β → Bool
  | .ok status bodyCode _ => status == 200 && !(status == 429 || bodyCode == some 429)
  | .exc => false

/-- The `while retries < max_retries` loop of `_make_request`.  `resp` is the
network oracle: the outcome of the `idx`-th request issued.  Returns the
parsed body (or `none`), the final key-manager state, and the total number of
attempts performed. -/
def makeRequestAux {β : Type} (t : ℚ) (resp : Nat → ApiResponse β) :
    Nat → Nat → ApiKeyManager → Option β × ApiKeyManager × Nat
  | 0, idx, m => (none, m, idx)
  | remaining + 1, idx, m =>
    let m1 := (getCurrentKey t m).2
    match resp idx with
    | .exc =>
      makeRequestAux t resp remaining (idx + 1) (rotateKey t none m1).2
    | .ok status bodyCode body =>
      if status = 429 ∨ bodyCode = some 429 then
        makeRequestAux t resp remaining (idx + 1) (rotateKey t (some rateLimitReason) m1).2
      else if status = 200 then
        (some body, m1, idx + 1)
      else
        makeRequestAux t resp remaining (idx + 1) (rotateKey t none m1).2

/-- `_make_request`: `max_retries = min(len(api_keys) * 2, 10)`. -/
def makeRequest {β : Type} (t : ℚ) (resp : Nat → ApiResponse β)
    (m : ApiKeyManager) : Option β × ApiKeyManager × Nat :=
  makeRequestAux t resp (min (m.apiKeys.length * 2) 10) 0 m

/- ------------------------------------------------------------------ -/
/- processors/sentiment.py : analyze_with_ai                           -/
/- ------------------------------------------------------------------ -/

/-- Result of `query_model` as consumed by `analyze_with_ai`: `score = none`
models the `"score": None` of the failure branches (`parse_error`,
`api_error`, `exception`). -/
structure ModelQueryResult where
  model : String
  score : Option ℚ
  tags : List String
deriving Repr, DecidableEq

/-- Counting loop `for tag in all_tags: tag_counts[tag] = tag_counts.get(tag, 0) + 1`:
an association list in first-seen order, as a Python dict iterates. -/
def freqCounts (values : List String) : List (String × Nat) :=
  values.foldl
    (fun acc v =>
      if acc.any (fun p => p.1 = v) then
        acc.map (fun p => if p.1 = v then (p.1, p.2 + 1) else p)
      else
        acc ++ [(v, 1)])
    []

/-- First occurrences of the values, in order (the key sequence of a Python
dict built by the counting loop).  Used to state what `freqCounts` computes. -/
def firstSeen (values : List String) : List String :=
  values.foldl (fun acc v => if v ∈ acc then acc else acc ++ [v]) []

/-- Insert `x` before the first element it satisfies `le` against: the
insertion step of a stable sort. -/
def insertSorted {α : Type} (le : α → α → Bool) (x : α) : List α → List α
  | [] => [x]
  | y :: ys => if le x y then x :: y :: ys else y :: insertSorted le x ys

/-- Stable sort by `le` (insertion sort), standing in for Python's stable
`sorted`. -/
def pySorted {α : Type} (le : α → α → Bool) : List α → List α
  | [] => []
  | x :: xs => insertSorted le x (pySorted le xs)

/-- Python `statistics.median`: middle element of the sorted values for odd
length, mean of the two middle elements for even length (modelled from the
stdlib's documented behaviour; the source calls it on a non-empty list). -/
def pyMedian (l : List ℚ) : ℚ :=
  let s := pySorted (fun a b => decide (a ≤ b)) l
  if l.length % 2 = 1 then
    s.getD (l.length / 2) 0
  else
    (s.getD (l.length / 2 - 1) 0 + s.getD (l.length / 2) 0) / 2

/-- `analyze_with_ai`, from the point where the per-model results are in
hand (`results = await asyncio.gather(*tasks)`); `useAi` is `self.use_ai`.
The Python body cannot raise: every failure path inside the `try` returns
`(None, [])`, which is also the value of the enclosing `except` branch. -/
def analyzeWithAI (useAi : Bool) (results : List ModelQueryResult) :
    Option ℚ × List String :=
  if useAi = false then (none, [])
  else
    let validResults := results.filter (fun r => r.score ≠ none)
    if validResults = [] then (none, [])
    else
      let scores := validResults.filterMap (fun r => r.score)
      let allTags := validResults.foldl (fun acc r => acc ++ r.tags) []
      let medianScore := pyMedian scores
      let tagCounts := freqCounts allTags
      let threshold := if validResults.length = 1 then 1 else 2
      let consensusTags := (tagCounts.filter (fun p => threshold ≤ p.2)).map (fun p => p.1)
      (some medianScore, consensusTags)

/-- The pooled tag list of the valid results (`all_tags` in the source). -/
def allTagsOf (results : List ModelQueryResult) : List String :=
  (results.filter (fun r => r.score ≠ none)).foldl (fun acc r => acc ++ r.tags) []

/-- The consensus threshold: 1 when exactly one model succeeded, else 2. -/
def thresholdOf (results : List ModelQueryResult) : Nat :=
  if (results.filter (fun r => r.score ≠ none)).length = 1 then 1 else 2

/-- Top-K by descending frequency with ties in first-seen order.  Modelled
from the spec: this is the aggregation §4.3 step 6 claims for the list-valued
fields; it exists to be compared with what `analyze_with_ai` actually
computes. -/
def topKByFrequency (k : Nat) (values : List String) : List String :=
  ((pySorted (fun a b => decide (b.2 ≤ a.2)) (freqCounts values)).take k).map (fun p => p.1)

/- ------------------------------------------------------------------ -/
/- processors/sentiment.py : extract_keywords                          -/
/- ------------------------------------------------------------------ -/

/-- `FreqDist(tokens).most_common(k)`: pairs sorted by descending count,
ties in first-encountered order (`collections.Counter.most_common`). -/
def mostCommon (k : Nat) (tokens : List String) : List (String × Nat) :=
  (pySorted (fun a b => decide (b.2 ≤ a.2)) (freqCounts tokens)).take k

/-- `extract_keywords`, from the token list onward.  Tokenisation
(`word_tokenize ∘ clean_text`) is external (NLTK) and enters as the `tokens`
argument; `stopWords` models `stopwords.words('english')`.  The source
filters stopwords and tokens of length ≤ 2, then keeps
`freq_dist.most_common(10)`. -/
def extractKeywords (stopWords : List String) (tokens : List String) : List String :=
  let filtered := tokens.filter (fun w => w ∉ stopWords ∧ 2 < w.length)
  (mostCommon 10 filtered).map (fun p => p.1)

/- ------------------------------------------------------------------ -/
/- processors/sentiment.py : process_unprocessed_content               -/
/- ------------------------------------------------------------------ -/

/-- A `RawContent` row, reduced to the fields the batch processor reads. -/
structure RawItem where
  id : Nat
  language : Option String
  content : String
deriving Repr, DecidableEq

/-- A `ProcessedContent` row, reduced to its link to the raw row and the
keywords field (the field claim C9 constrains). -/
structure ProcessedRecord where
  rawContentId : Nat
  keywords : List String
deriving Repr, DecidableEq

/-- The repository: raw rows and processed rows. -/
structure Database where
  raw : List RawItem
  processed : List ProcessedRecord
deriving Repr, DecidableEq

/-- Language filter of the fetch query:
`(language == 'en') | (language == None) | (language == 'unknown')`. -/
def langOk : Option String → Bool
  | none => true
  | some l => l == langEn || l == langUnknown

/-- A raw row is eligible when no processed row references it (the outer
join's `ProcessedContent.id == None` filter) and its language passes. -/
def isEligible (db : Database) (r : RawItem) : Bool :=
  db.processed.all (fun p => p.rawContentId ≠ r.id) && langOk r.language

/-- The fetch query of `process_unprocessed_content` with its `limit`. -/
def fetchUnprocessed (limit : Nat) (db : Database) : List RawItem :=
  (db.raw.filter (isEligible db)).take limit

/-- `process_unprocessed_content`: fetch the eligible batch, then per item
build and commit one `ProcessedContent` row.  `tokenize` stands for the
external NLTK tokenisation; the per-item analysis is total, so the per-item
`except` branch is unreachable and every fetched item commits.  Returns the
new database and `processed_count`. -/
def processUnprocessedContent (stopWords : List String)
    (tokenize : String → List String) (limit : Nat) (db : Database) :
    Database × Nat :=
  (fetchUnprocessed limit db).foldl
    (fun acc item =>
      ({ acc.1 with
          processed := acc.1.processed ++
            [⟨item.id, extractKeywords stopWords (tokenize item.content)⟩] },
        acc.2 + 1))
    (db, 0)

/- ------------------------------------------------------------------ -/
/- api/openrouter.py : extract_json_from_completion                    -/
/- ------------------------------------------------------------------ -/

/-- JSON values, as `json.loads` returns them (numbers as one numeric type). -/
inductive Json where
  | null
  | bool (b : Bool)
  | num (q : ℚ)
  | str (s : String)
  | arr (elems : List Json)
  | obj (fields : List (String × Json))
deriving Repr

/-- JSON insignificant whitespace (RFC 8259: space, tab, newline, return). -/
def isJsonWs (c : Char) : Bool :=
  c = ' ' || c = '\t' || c = '\n' || c = '\r'

/-- Drop leading JSON whitespace. -/
def skipWs : List Char → List Char
  | [] => []
  | c :: cs => if isJsonWs c then skipWs cs else c :: cs

/-- Numeric value of a decimal digit. -/
def digitVal (c : Char) : Nat := c.toNat - '0'.toNat

/-- Value of a digit run. -/
def digitsToNat (ds : List Char) : Nat :=
  ds.foldl (fun acc c => acc * 10 + digitVal c) 0

/-- Whether the character is a hexadecimal digit. -/
def isHexDigitChar (c : Char) : Bool :=
  c.isDigit || ('a' ≤ c && c ≤ 'f') || ('A' ≤ c && c ≤ 'F')

/-- Value of a hexadecimal digit. -/
def hexVal (c : Char) : Nat :=
  if c.isDigit then c.toNat - '0'.toNat
  else if 'a' ≤ c ∧ c ≤ 'f' then c.toNat - 'a'.toNat + 10
  else if 'A' ≤ c ∧ c ≤ 'F' then c.toNat - 'A'.toNat + 10
  else 0

/-- Body of a JSON string after the opening quote: consume up to the closing
quote, decoding escapes; `acc` holds the decoded characters reversed.
Unescaped control characters are rejected as `json.loads` (strict mode)
does. -/
def parseStringBody (acc : List Char) : List Char → Option (String × List Char)
  | [] => none
  | '"' :: rest => some (String.mk acc.reverse, rest)
  | '\\' :: esc =>
    match esc with
    | '"' :: rest => parseStringBody ('"' :: acc) rest
    | '\\' :: rest => parseStringBody ('\\' :: acc) rest
    | '/' :: rest => parseStringBody ('/' :: acc) rest
    | 'b' :: rest => parseStringBody ('\x08' :: acc) rest
    | 'f' :: rest => parseStringBody ('\x0c' :: acc) rest
    | 'n' :: rest => parseStringBody ('\n' :: acc) rest
    | 'r' :: rest => parseStringBody ('\r' :: acc) rest
    | 't' :: rest => parseStringBody ('\t' :: acc) rest
    | 'u' :: h1 :: h2 :: h3 :: h4 :: rest =>
      if isHexDigitChar h1 ∧ isHexDigitChar h2 ∧ isHexDigitChar h3 ∧ isHexDigitChar h4 then
        parseStringBody
          (Char.ofNat (((hexVal h1 * 16 + hexVal h2) * 16 + hexVal h3) * 16 + hexVal h4) :: acc)
          rest
      else none
    | _ => none
  | c :: rest =>
    if c.toNat < 32 then none else parseStringBody (c :: acc) rest

/-- Optional fraction part: returns its digit run (when present) and the
remainder; a bare dot without digits is malformed. -/
def parseFrac : List Char → Option (Option (List Char) × List Char)
  | '.' :: fs =>
    let fd := fs.takeWhile Char.isDigit
    if fd = [] then none else some (some fd, fs.dropWhile Char.isDigit)
  | cs => some (none, cs)

/-- Optional exponent part: returns its sign and digit run (when present)
and the remainder; an `e` without digits is malformed. -/
def parseExp : List Char → Option (Option (Bool × List Char) × List Char)
  | 'e' :: es | 'E' :: es =>
    let sgn :=
      match es with
      | '-' :: tl => (true, tl)
      | '+' :: tl => (false, tl)
      | _ => (false, es)
    let ed := sgn.2.takeWhile Char.isDigit
    if ed = [] then none else some (some (sgn.1, ed), sgn.2.dropWhile Char.isDigit)
  | cs => some (none, cs)

/-- A JSON number starting at `cs`: optional minus, integer part without
leading zeros, optional fraction, optional exponent. -/
def parseNumber (cs : List Char) : Option (Json × List Char) :=
  let sgn :=
    match cs with
    | '-' :: rest => (true, rest)
    | _ => (false, cs)
  let intDigits := sgn.2.takeWhile Char.isDigit
  let afterInt := sgn.2.dropWhile Char.isDigit
  if intDigits = [] then none
  else if intDigits.headD '0' = '0' ∧ intDigits.length ≠ 1 then none
  else
    match parseFrac afterInt with
    | none => none
    | some (fracPart, rest1) =>
      let base : ℚ :=
        match fracPart with
        | none => (digitsToNat intDigits : ℚ)
        | some fd => (digitsToNat intDigits : ℚ) + (digitsToNat fd : ℚ) / (10 : ℚ) ^ fd.length
      match parseExp rest1 with
      | none => none
      | some (expPart, rest2) =>
        let q : ℚ :=
          match expPart with
          | none => base
          | some (expNeg, ed) =>
            if expNeg then base / (10 : ℚ) ^ digitsToNat ed
            else base * (10 : ℚ) ^ digitsToNat ed
        some (Json.num (if sgn.1 then -q else q), rest2)

mutual

/-- A JSON value starting at `cs` (leading whitespace allowed); returns the
value and the unconsumed remainder.  The fuel bounds recursion depth; one
unit is consumed per grammar step, so `length + 1` units suffice (each step
consumes input). -/
def parseValue : Nat → List Char → Option (Json × List Char)
  | 0, _ => none
  | fuel + 1, cs =>
    match skipWs cs with
    | 'n' :: 'u' :: 'l' :: 'l' :: rest => some (Json.null, rest)
    | 't' :: 'r' :: 'u' :: 'e' :: rest => some (Json.bool true, rest)
    | 'f' :: 'a' :: 'l' :: 's' :: 'e' :: rest => some (Json.bool false, rest)
    | '"' :: rest =>
      (parseStringBody [] rest).map (fun p => (Json.str p.1, p.2))
    | '[' :: rest =>
      (match skipWs rest with
       | ']' :: rest2 => some (Json.arr [], rest2)
       | _ =>
         (parseElements fuel rest).map (fun p => (Json.arr p.1, p.2)))
    | '\x7b' :: rest =>
      (match skipWs rest with
       | '\x7d' :: rest2 => some (Json.obj [], rest2)
       | _ =>
         (parseMembers fuel rest).map (fun p => (Json.obj p.1, p.2)))
    | cs1 => parseNumber cs1

/-- One or more comma-separated array elements followed by `]`. -/
def parseElements : Nat → List Char → Option (List Json × List Char)
  | 0, _ => none
  | fuel + 1, cs =>
    match parseValue fuel cs with
    | none => none
    | some (v, rest) =>
      match skipWs rest with
      | ',' :: rest2 =>
        (parseElements fuel rest2).map (fun p => (v :: p.1, p.2))
      | ']' :: rest2 => some ([v], rest2)
      | _ => none

/-- One or more comma-separated object members followed by the closing
brace. -/
def parseMembers : Nat → List Char → Option (List (String × Json) × List Char)
  | 0, _ => none
  | fuel + 1, cs =>
    match skipWs cs with
    | '"' :: rest =>
      (match parseStringBody [] rest with
       | none => none
       | some (key, rest1) =>
         match skipWs rest1 with
         | ':' :: rest2 =>
           (match parseValue fuel rest2 with
            | none => none
            | some (v, rest3) =>
              match skipWs rest3 with
              | ',' :: rest4 =>
                (parseMembers fuel rest4).map (fun p => ((key, v) :: p.1, p.2))
              | '\x7d' :: rest4 => some ([(key, v)], rest4)
              | _ => none)
         | _ => none)
    | _ => none

end

/-- `json.loads` on a character sequence: one value, then only whitespace. -/
def jsonLoads (cs : List Char) : Option Json :=
  match parseValue (cs.length + 1) cs with
  | some (v, rest) => if skipWs rest = [] then some v else none
  | none => none

/-- Python `str.strip()` / regex `\s` character class. -/
def isPySpace (c : Char) : Bool :=
  c = ' ' || c = '\t' || c = '\n' || c = '\r' || c = '\x0b' || c = '\x0c'

/-- `content.strip()`. -/
def pyStrip (cs : List Char) : List Char :=
  (((cs.dropWhile isPySpace).reverse).dropWhile isPySpace).reverse

/-- The opening fence with language tag matched by `r'^```json'`. -/
def fenceJsonOpen : List Char :=
  "```json".toList

/-- The closing fence matched by `r'```$'`. -/
def fenceClose : List Char :=
  "```".toList

/-- `re.sub(r'^```json\s*', '', content)`: the pattern is anchored and
requires the literal `json` language tag after the backticks. -/
def stripLeadingJsonFence (cs : List Char) : List Char :=
  if fenceJsonOpen.isPrefixOf cs then
    (cs.drop 7).dropWhile isPySpace
  else cs

/-- `re.sub(r'\s*```$', '', content)` on input with no trailing whitespace
(the content was stripped first, so `$` can only be the very end). -/
def stripTrailingFence (cs : List Char) : List Char :=
  if fenceClose.isSuffixOf cs then
    ((cs.reverse.drop 3).dropWhile isPySpace).reverse
  else cs

/-- Lines 123–134 of `extract_json_from_completion`: strip, remove fences,
parse.  The first component is the returned value, the second the excerpt
logged on parse failure (`content[:200]`, where `content` is the stripped
text). -/
def extractJsonFromContent (content : String) : Option Json × Option String :=
  let cs := stripTrailingFence (stripLeadingJsonFence (pyStrip content.toList))
  match jsonLoads cs with
  | some j => (some j, none)
  | none => (none, some (String.mk (cs.take 200)))

/-- A `choices[i]` entry: only `message.content` is read. -/
structure CompletionChoice where
  content : String
deriving Repr, DecidableEq

/-- `extract_json_from_completion` from the completion response onward:
`none` models both `not response` and a missing `choices` field, either of
which short-circuits to `None`; otherwise the FIRST choice's content is
processed.  (The source would raise `IndexError` on a present-but-empty
`choices` list; that path is outside this model.) -/
def extractJsonFromCompletion (response : Option (List CompletionChoice)) :
    Option Json × Option String :=
  match response with
  | none => (none, none)
  | some [] => (none, none)
  | some (choice :: _) => extractJsonFromContent choice.content

/- ------------------------------------------------------------------ -/
/- Concrete inputs used by counterexamples and witnesses.              -/
/- ------------------------------------------------------------------ -/

/-- A first sample credential. -/
def keyA : String := "a"

/-- A second sample credential. -/
def keyB : String := "b"

/-- A manager with two keys, the second cooling until time 100. -/
def c1Manager : ApiKeyManager :=
  ⟨60, [keyA, keyB], keyA, [(keyB, 100)]⟩

/-- A manager with two keys and no cooldowns. -/
def c3Manager : ApiKeyManager :=
  ⟨60, [keyA, keyB], keyA, []⟩

/-- An oracle whose every response is a non-429 server error. -/
def c3Resp : Nat → ApiResponse Nat :=
  fun _ => ApiResponse.ok 500 none 0

/-- A first sample model name. -/
def modelA : String := "m1"

/-- A second sample model name. -/
def modelB : String := "m2"

/-- A third sample model name. -/
def modelC : String := "m3"

/-- A first sample tag. -/
def tagA : String := "defi"

/-- A second sample tag. -/
def tagB : String := "nft"

/-- Three successful results with scores `[-1, 0, 1]`. -/
def c2OddResults : List ModelQueryResult :=
  [⟨modelA, some (-1), []⟩, ⟨modelB, some 0, []⟩, ⟨modelC, some 1, []⟩]

/-- Two successful results with scores `[0.2, 0.8]`. -/
def c2EvenResults : List ModelQueryResult :=
  [⟨modelA, some (2 / 10), []⟩, ⟨modelB, some (8 / 10), []⟩]

/-- One failed result (its score is absent). -/
def c4Results : List ModelQueryResult :=
  [⟨modelA, none, [tagA]⟩]

/-- Two successful results, each contributing one distinct tag. -/
def c6Results : List ModelQueryResult :=
  [⟨modelA, some 0, [tagA]⟩, ⟨modelB, some 0, [tagB]⟩]

/-- Two successful results whose tags agree twice over. -/
def c6WitnessResults : List ModelQueryResult :=
  [⟨modelA, some 0, [tagA, tagB, tagA]⟩, ⟨modelB, some 1, [tagB]⟩]

/-- Nine distinct tokens, none a stopword, all longer than two characters. -/
def c9Tokens : List String :=
  ["alpha", "bravo", "charlie", "delta", "echoes", "foxtrot", "golfing", "hotels", "indigo"]

/-- A small stand-in for the NLTK English stopword list. -/
def c9Stops : List String :=
  ["the", "is", "a", "an"]

/-- A language tag the fetch query rejects. -/
def langFr : String := "fr"

/-- A sample raw text. -/
def contentA : String := "hello"

/-- Another sample raw text. -/
def contentB : String := "tweet"

/-- A database with one eligible raw row, one row in a rejected language,
and no processed rows. -/
def c7Db : Database :=
  ⟨[⟨1, some langEn, contentA⟩, ⟨2, some langFr, contentB⟩], []⟩

/-- A trivial stand-in for NLTK tokenisation. -/
def c7Tokenize : String → List String :=
  fun s => [s]

/-- A database whose sole processed row already carries nine keywords. -/
def c9Db : Database :=
  ⟨[⟨1, none, contentA⟩], [⟨5, c9Tokens⟩]⟩

/-- Model output wrapped in a fence with the `json` language tag. -/
def c5FencedInput : String := "```json\n\x7b\"a\":1\x7d\n```"

/-- The same model output wrapped in a fence without a language tag. -/
def c5BareInput : String := "```\n\x7b\"a\":1\x7d\n```"

/-- What remains of `c5BareInput` after stripping: the leading fence
survives, so parsing fails and this text is logged. -/
def c5BareLog : String := "```\n\x7b\"a\":1\x7d"

/-- The `ProcessedContent` row built for one fetched item (the keywords
field of line 382 of the source). -/
def recordOf (stops : List String) (tok : String → List String)
    (item : RawItem) : ProcessedRecord :=
  ⟨item.id, extractKeywords stops (tok item.content)⟩

/- ------------------------------------------------------------------ -/
/- Helper lemmas.                                                      -/
/- ------------------------------------------------------------------ -/

theorem dictLookup_erase_self (d : List (String × ℚ)) (k : String) :
    dictLookup (dictErase d k) k = none := by
  have h : (dictErase d k).find? (fun p => p.1 = k) = none := by
    rw [List.find?_eq_none]
    intro p hp
    have hmem := (List.mem_filter.mp hp).2
    simpa using hmem
  simp [dictLookup, h]

theorem isCoolingDown_erased (t : ℚ) (m : ApiKeyManager) (d : List (String × ℚ))
    (k : String) :
    isCoolingDown t { m with rateLimited := dictErase d k } k = false := by
  simp [isCoolingDown, dictLookup_erase_self]

/- ------------------------------------------------------------------ -/
/- C8                                                                  -/
/- ------------------------------------------------------------------ -/

/-- C8: for a pool of exactly one credential, `rotate_key` (with any
`reason`) does not advance the cursor and does not recurse: it removes the
sole credential's cooldown entry and returns that same credential. -/
theorem rotate_single_key_clears_cooldown (k : String) (t cd : ℚ)
    (reason : Option String) (d : List (String × ℚ)) :
    (rotateKey t reason ⟨cd, [k], k, d⟩).1 = k ∧
    (rotateKey t reason ⟨cd, [k], k, d⟩).2.apiKeys = [k] ∧
    (rotateKey t reason ⟨cd, [k], k, d⟩).2.currentKey = k ∧
    dictLookup (rotateKey t reason ⟨cd, [k], k, d⟩).2.rateLimited k = none := by
  simp only [rotateKey, rotateKeyAux, markRateLimited]
  split
  · simp [dictLookup_erase_self]
  · simp [dictLookup_erase_self]

/- ------------------------------------------------------------------ -/
/- C10                                                                 -/
/- ------------------------------------------------------------------ -/

/-- C10 counterexample: in `c10Env` the unindexed variable is set (to the
empty string) and indexes 1 and 2 are both set, so under the claim the main
key and the key at index 2 would be collected; the loader collects
nothing, because a set-but-empty value is falsy and stops the scan. -/
theorem load_keys_counterexample :
    loadKeysFromEnv (some emptyString) c10Env 5 = [] ∧
    c10Env 1 = some emptyString ∧
    c10Env 2 = some sampleKey := by
  decide

theorem loadIndexedKeys_run (env : Nat → Option String) :
    ∀ (fuel i s : Nat), i ≤ s → s < i + fuel →
      envTruthy (env s) = false →
      (∀ j, i ≤ j → j < s → envTruthy (env j) = true) →
      loadIndexedKeys env i fuel =
        (List.range' i (s - i)).map (fun j => (env j).getD emptyString) := by
  intro fuel
  induction fuel with
  | zero => intro i s his hlt _ _; omega
  | succ n ih =>
    intro i s his hlt hstop hrun
    by_cases hi : i = s
    · subst hi
      simp [loadIndexedKeys, hstop]
    · have hlt2 : i < s := by omega
      have htr : envTruthy (env i) = true := hrun i (Nat.le_refl i) hlt2
      have hrest := ih (i + 1) s (by omega) (by omega) hstop
        (fun j hj1 hj2 => hrun j (by omega) hj2)
      have hs : s - i = (s - (i + 1)) + 1 := by omega
      rw [loadIndexedKeys, htr, if_pos rfl, hrest, hs, List.range'_succ]
      simp

/-- C10, amended: the loader collects the unindexed key when it is set to a
non-empty value, then the indexed keys in consecutive order, stopping at the
first index whose variable is unset *or empty*; every key at a higher index
is silently ignored.  `s` is that first falsy index and the collected
indexed keys are exactly those at indexes `1, …, s - 1`. -/
theorem load_keys_collects_consecutive_run (mainKey : Option String)
    (env : Nat → Option String) (fuel s : Nat)
    (hs : 1 ≤ s) (hfuel : s ≤ fuel)
    (hstop : envTruthy (env s) = false)
    (hrun : ∀ j, j < s → 1 ≤ j → envTruthy (env j) = true) :
    loadKeysFromEnv mainKey env fuel =
      (if envTruthy mainKey then [mainKey.getD emptyString] else []) ++
        (List.range' 1 (s - 1)).map (fun j => (env j).getD emptyString) := by
  rw [loadKeysFromEnv,
    loadIndexedKeys_run env fuel 1 s hs (by omega) hstop
      (fun j hj1 hj2 => hrun j hj2 hj1)]

/-- Witness for C10's amended theorem at a concrete environment. -/
theorem load_keys_collects_consecutive_run_witness :
    loadKeysFromEnv (some sampleMain) c10WitnessEnv 5 =
      [sampleMain, sampleKey2, sampleKey2] := by
  have h := load_keys_collects_consecutive_run (some sampleMain) c10WitnessEnv 5 3
    (by decide) (by decide) (by decide) (by decide)
  exact h.trans (by decide)

/- ------------------------------------------------------------------ -/
/- C1                                                                  -/
/- ------------------------------------------------------------------ -/

theorem rotateKeyAux_step (t : ℚ) (n : Nat) (m : ApiKeyManager)
    (h : m.apiKeys.length ≠ 1) :
    rotateKeyAux t (n + 1) none m =
      (match dictLookup m.rateLimited ((m.apiKeys.rotate 1).headD emptyString) with
       | some expiry =>
         if t < expiry then
           rotateKeyAux t n none
             { m with apiKeys := m.apiKeys.rotate 1,
                      currentKey := (m.apiKeys.rotate 1).headD emptyString }
         else
           (((m.apiKeys.rotate 1).headD emptyString),
             { m with apiKeys := m.apiKeys.rotate 1,
                      currentKey := (m.apiKeys.rotate 1).headD emptyString,
                      rateLimited :=
                        dictErase m.rateLimited ((m.apiKeys.rotate 1).headD emptyString) })
       | none =>
         (((m.apiKeys.rotate 1).headD emptyString),
           { m with apiKeys := m.apiKeys.rotate 1,
                    currentKey := (m.apiKeys.rotate 1).headD emptyString })) := by
  rw [rotateKeyAux]
  simp [h]

theorem rotateKeyAux_avoids_cooldown (t : ℚ) :
    ∀ (fuel : Nat) (m : ApiKeyManager), 2 ≤ m.apiKeys.length →
      (∃ i, i < fuel ∧
        isCoolingDown t m ((m.apiKeys.rotate (i + 1)).headD emptyString) = false) →
      isCoolingDown t (rotateKeyAux t fuel none m).2 (rotateKeyAux t fuel none m).1 = false := by
  intro fuel
  induction fuel with
  | zero =>
    rintro m _ ⟨i, hi, _⟩
    omega
  | succ n ih =>
    rintro m h2 ⟨i, hi, hfree⟩
    have hne : m.apiKeys.length ≠ 1 := by omega
    rw [rotateKeyAux_step t n m hne]
    rcases hd : dictLookup m.rateLimited ((m.apiKeys.rotate 1).headD emptyString) with _ | expiry
    · rw [List.headD_eq_head?] at hd
      simp [isCoolingDown, hd]
    · by_cases hexp : t < expiry
      · simp only [hexp, if_true]
        apply ih
        · simpa using h2
        · rcases i with _ | i1
          · exfalso
            rw [List.headD_eq_head?] at hd
            have hcool : isCoolingDown t m ((m.apiKeys.rotate 1).headD emptyString) = true := by
              simp [isCoolingDown, hd, hexp]
            simp only [Nat.zero_add] at hfree
            rw [hfree] at hcool
            exact Bool.false_ne_true hcool
          · refine ⟨i1, by omega, ?_⟩
            have hrr : (m.apiKeys.rotate 1).rotate (i1 + 1) = m.apiKeys.rotate (i1 + 1 + 1) := by
              rw [List.rotate_rotate, Nat.add_comm]
            simpa [hrr] using hfree
      · simp only [hexp, if_false]
        exact isCoolingDown_erased t
          { m with apiKeys := m.apiKeys.rotate 1,
                   currentKey := (m.apiKeys.rotate 1).headD emptyString }
          m.rateLimited ((m.apiKeys.rotate 1).headD emptyString)

/-- C1: with a pool of at least two credentials and at least one credential
not in cooldown, `rotate_key()` terminates within `pool size` recursive
steps (the fuel `apiKeys.length` is never exhausted, as the returned key is
reached through the rotation sequence) and the credential it returns is not
in cooldown in the resulting state. -/
theorem rotate_key_avoids_cooldown (t : ℚ) (m : ApiKeyManager)
    (h2 : 2 ≤ m.apiKeys.length)
    (hfree : ∃ k ∈ m.apiKeys, isCoolingDown t m k = false) :
    isCoolingDown t (rotateKey t none m).2 (rotateKey t none m).1 = false := by
  obtain ⟨k, hk, hkfree⟩ := hfree
  obtain ⟨⟨j, hj⟩, hget⟩ := List.get_of_mem hk
  apply rotateKeyAux_avoids_cooldown t m.apiKeys.length m h2
  rcases Nat.eq_zero_or_pos j with hj0 | hjpos
  · refine ⟨m.apiKeys.length - 1, by omega, ?_⟩
    have hlen : m.apiKeys.length - 1 + 1 = m.apiKeys.length := by omega
    rw [hlen, List.rotate_length, List.headD_eq_head?, List.head?_eq_getElem?]
    subst hj0
    rw [List.getElem?_eq_getElem hj]
    rw [List.get_eq_getElem] at hget
    simpa [hget] using hkfree
  · refine ⟨j - 1, by omega, ?_⟩
    have hj1 : j - 1 + 1 = j := by omega
    rw [hj1, List.headD_eq_head?, List.head?_rotate hj, List.getElem?_eq_getElem hj]
    rw [List.get_eq_getElem] at hget
    simpa [hget] using hkfree

/-- Witness for C1 at a concrete two-key pool whose second key is cooling. -/
theorem rotate_key_avoids_cooldown_witness :
    isCoolingDown 0 (rotateKey 0 none c1Manager).2 (rotateKey 0 none c1Manager).1 = false :=
  rotate_key_avoids_cooldown 0 c1Manager (by decide) (by decide)

/- ------------------------------------------------------------------ -/
/- C3                                                                  -/
/- ------------------------------------------------------------------ -/

theorem makeRequestAux_budget {β : Type} (t : ℚ) (resp : Nat → ApiResponse β) :
    ∀ (remaining idx : Nat) (m : ApiKeyManager),
      (makeRequestAux t resp remaining idx m).2.2 ≤ idx + remaining ∧
      ((∀ i, idx ≤ i → i < idx + remaining → isSuccessResp (resp i) = false) →
        (makeRequestAux t resp remaining idx m).1 = none) := by
  intro remaining
  induction remaining with
  | zero =>
    intro idx m
    exact ⟨Nat.le_refl idx, fun _ => rfl⟩
  | succ r ih =>
    intro idx m
    rw [makeRequestAux]
    rcases hr : resp idx with ⟨status, bodyCode, body⟩ | _
    · dsimp only
      by_cases h429 : status = 429 ∨ bodyCode = some 429
      · simp only [h429, if_true]
        refine ⟨le_trans (ih (idx + 1) _).1 (by omega), fun hall => (ih (idx + 1) _).2 ?_⟩
        intro i hi1 hi2
        exact hall i (by omega) (by omega)
      · simp only [h429, if_false]
        by_cases h200 : status = 200
        · simp only [h200, if_true]
          refine ⟨by omega, fun hall => ?_⟩
          exfalso
          have hs := hall idx (Nat.le_refl idx) (by omega)
          rw [hr] at hs
          subst h200
          simp [isSuccessResp] at hs
          exact h429 (Or.inr (by simpa using hs))
        · simp only [h200, if_false]
          refine ⟨le_trans (ih (idx + 1) _).1 (by omega), fun hall => (ih (idx + 1) _).2 ?_⟩
          intro i hi1 hi2
          exact hall i (by omega) (by omega)
    · dsimp only
      refine ⟨le_trans (ih (idx + 1) _).1 (by omega), fun hall => (ih (idx + 1) _).2 ?_⟩
      intro i hi1 hi2
      exact hall i (by omega) (by omega)

/-- C3: `_make_request` performs at most `min(pool_size * 2, 10)` attempts,
and when no attempt inside that budget is an HTTP 200 success the call
returns `none` (the model is a total function: no exception reaches the
caller). -/
theorem make_request_attempt_budget {β : Type} (t : ℚ) (resp : Nat → ApiResponse β)
    (m : ApiKeyManager) :
    (makeRequest t resp m).2.2 ≤ min (m.apiKeys.length * 2) 10 ∧
    ((∀ i, i < min (m.apiKeys.length * 2) 10 → isSuccessResp (resp i) = false) →
      (makeRequest t resp m).1 = none) := by
  have h := makeRequestAux_budget t resp (min (m.apiKeys.length * 2) 10) 0 m
  refine ⟨by simpa using h.1, fun hall => h.2 ?_⟩
  intro i _ hi2
  exact hall i (by omega)

/-- Witness for C3: two keys, every response a 500 error; four attempts are
made and the result is `none`. -/
theorem make_request_attempt_budget_witness :
    (makeRequest 0 c3Resp c3Manager).2.2 ≤ min (c3Manager.apiKeys.length * 2) 10 ∧
    (makeRequest 0 c3Resp c3Manager).1 = none :=
  ⟨(make_request_attempt_budget 0 c3Resp c3Manager).1,
    (make_request_attempt_budget 0 c3Resp c3Manager).2 (by decide)⟩

/- ------------------------------------------------------------------ -/
/- C2                                                                  -/
/- ------------------------------------------------------------------ -/

/-- C2: with at least one successful model result, the consensus sentiment
returned by `analyze_with_ai` is the statistical median of exactly the valid
scores; in particular scores `[-1, 0, 1]` give `0` and `[0.2, 0.8]` give
`0.5`. -/
theorem consensus_sentiment_is_median (results : List ModelQueryResult)
    (h : results.filter (fun r => r.score ≠ none) ≠ []) :
    (analyzeWithAI true results).1 =
      some (pyMedian ((results.filter (fun r => r.score ≠ none)).filterMap (fun r => r.score))) ∧
    (analyzeWithAI true c2OddResults).1 = some 0 ∧
    (analyzeWithAI true c2EvenResults).1 = some (1 / 2) := by
  refine ⟨?_, by decide, ?_⟩
  · rw [analyzeWithAI]
    rw [if_neg (by decide : ¬(true = false))]
    dsimp only
    rw [if_neg h]
  · simp only [analyzeWithAI, c2EvenResults]
    simp [pyMedian, pySorted, insertSorted, freqCounts]
    norm_num

/-- Witness for C2 at three concrete successful results. -/
theorem consensus_sentiment_is_median_witness :
    (analyzeWithAI true c2OddResults).1 =
      some (pyMedian ((c2OddResults.filter (fun r => r.score ≠ none)).filterMap
        (fun r => r.score))) ∧
    (analyzeWithAI true c2OddResults).1 = some 0 ∧
    (analyzeWithAI true c2EvenResults).1 = some (1 / 2) :=
  consensus_sentiment_is_median c2OddResults (by decide)

/- ------------------------------------------------------------------ -/
/- C4                                                                  -/
/- ------------------------------------------------------------------ -/

/-- C4: when no model result succeeded (every score absent),
`analyze_with_ai` returns the neutral fallback `(None, [])`; the model is a
total function, reflecting that every failure path in the source returns
this default instead of raising. -/
theorem analyze_neutral_fallback (useAi : Bool) (results : List ModelQueryResult)
    (h : ∀ r ∈ results, r.score = none) :
    analyzeWithAI useAi results = (none, []) := by
  cases useAi with
  | false => rfl
  | true =>
    have hfil : results.filter (fun r => r.score ≠ none) = [] := by
      rw [List.filter_eq_nil_iff]
      intro r hr
      simp [h r hr]
    rw [analyzeWithAI]
    rw [if_neg (by decide : ¬(true = false))]
    dsimp only
    rw [if_pos hfil]

/-- Witness for C4 at one concrete failed result. -/
theorem analyze_neutral_fallback_witness :
    analyzeWithAI true c4Results = (none, []) :=
  analyze_neutral_fallback true c4Results (by decide)

/- ------------------------------------------------------------------ -/
/- C6                                                                  -/
/- ------------------------------------------------------------------ -/

/-- C6 counterexample: two valid results contributing the distinct tags
`[defi]` and `[nft]`.  Top-K by frequency (K = 5) would keep both pooled
tags; the source's threshold consensus (count ≥ 2) keeps neither. -/
theorem consensus_tags_counterexample :
    (analyzeWithAI true c6Results).2 = [] ∧
    topKByFrequency 5 [tagA, tagB] = [tagA, tagB] ∧
    (analyzeWithAI true c6Results).2 ≠ topKByFrequency 5 [tagA, tagB] := by
  decide

theorem firstSeen_append_singleton (l : List String) (x : String) :
    firstSeen (l ++ [x]) =
      if x ∈ firstSeen l then firstSeen l else firstSeen l ++ [x] := by
  rw [firstSeen, List.foldl_append]
  rfl

theorem freqCounts_append_singleton (l : List String) (x : String) :
    freqCounts (l ++ [x]) =
      if (freqCounts l).any (fun p => p.1 = x) then
        (freqCounts l).map (fun p => if p.1 = x then (p.1, p.2 + 1) else p)
      else freqCounts l ++ [(x, 1)] := by
  rw [freqCounts, List.foldl_append]
  rfl

theorem mem_firstSeen : ∀ (l : List String) (x : String), x ∈ firstSeen l ↔ x ∈ l := by
  intro l
  induction l using List.reverseRecOn with
  | nil => intro x; simp [firstSeen]
  | append_singleton l y ih =>
    intro x
    rw [firstSeen_append_singleton]
    by_cases hy : y ∈ firstSeen l
    · have hyl : y ∈ l := (ih y).mp hy
      rw [if_pos hy]
      constructor
      · intro hx
        exact List.mem_append_left _ ((ih x).mp hx)
      · intro hx
        rcases List.mem_append.mp hx with h1 | h2
        · exact (ih x).mpr h1
        · rw [List.mem_singleton] at h2
          subst h2
          exact hy
    · rw [if_neg hy]
      simp [ih x]

theorem freqCounts_eq_firstSeen_counts :
    ∀ l : List String, freqCounts l = (firstSeen l).map (fun t => (t, l.count t)) := by
  intro l
  induction l using List.reverseRecOn with
  | nil => rfl
  | append_singleton l x ih =>
    rw [freqCounts_append_singleton, firstSeen_append_singleton, ih]
    by_cases hx : x ∈ firstSeen l
    · have hany : ((firstSeen l).map (fun t => (t, l.count t))).any (fun p => p.1 = x) = true := by
        rw [List.any_eq_true]
        exact ⟨(x, l.count x), List.mem_map_of_mem _ hx, by simp⟩
      rw [hany, if_pos rfl, if_pos hx, List.map_map]
      apply List.map_congr_left
      intro t ht
      by_cases htx : t = x
      · subst htx
        simp [List.count_append]
      · simp [htx, List.count_append]
    · have hany : ((firstSeen l).map (fun t => (t, l.count t))).any (fun p => p.1 = x) = false := by
        rw [List.any_eq_false]
        intro p hp
        obtain ⟨t, ht, rfl⟩ := List.mem_map.mp hp
        simp only [decide_eq_true_eq]
        exact fun hh => hx (hh ▸ ht)
      rw [hany]
      simp only [Bool.false_eq_true, if_false, if_neg hx, List.map_append]
      congr 1
      · apply List.map_congr_left
        intro t ht
        have htx : t ≠ x := fun hh => hx (hh ▸ ht)
        simp [htx, List.count_append]
      · have hxl : x ∉ l := fun hh => hx ((mem_firstSeen l x).mpr hh)
        simp [List.count_append, List.count_eq_zero_of_not_mem hxl]

/-- C6, amended: `analyze_with_ai` pools the tags of the valid results and
returns, in first-seen order, exactly those pooled tags whose frequency
reaches the threshold (1 when a single model succeeded, else 2).  No top-K
truncation is applied, and keywords/entities are not pooled across models by
this function. -/
theorem consensus_tags_are_threshold_filtered (results : List ModelQueryResult)
    (h : results.filter (fun r => r.score ≠ none) ≠ []) :
    (analyzeWithAI true results).2 =
      (firstSeen (allTagsOf results)).filter
        (fun tag => thresholdOf results ≤ (allTagsOf results).count tag) := by
  rw [analyzeWithAI, if_neg (by decide : ¬(true = false))]
  dsimp only
  rw [if_neg h]
  dsimp only [allTagsOf, thresholdOf]
  rw [freqCounts_eq_firstSeen_counts, List.filter_map, List.map_map]
  simp only [Function.comp_def]
  simp

/-- Witness for C6's amended theorem: tags `[defi, nft, defi]` and `[nft]`
from two valid results give the consensus `[defi, nft]`. -/
theorem consensus_tags_are_threshold_filtered_witness :
    (analyzeWithAI true c6WitnessResults).2 =
      (firstSeen (allTagsOf c6WitnessResults)).filter
        (fun tag => thresholdOf c6WitnessResults ≤ (allTagsOf c6WitnessResults).count tag) :=
  consensus_tags_are_threshold_filtered c6WitnessResults (by decide)


/- ------------------------------------------------------------------ -/
/- C7                                                                  -/
/- ------------------------------------------------------------------ -/

theorem processFold_spec (stops : List String) (tok : String → List String) :
    ∀ (items : List RawItem) (db0 : Database) (c0 : Nat),
      (items.foldl
        (fun acc item =>
          ({ acc.1 with
              processed := acc.1.processed ++
                [⟨item.id, extractKeywords stops (tok item.content)⟩] },
            acc.2 + 1))
        (db0, c0)) =
      (⟨db0.raw, db0.processed ++ items.map (recordOf stops tok)⟩, c0 + items.length) := by
  intro items
  induction items with
  | nil => intro db0 c0; simp
  | cons item rest ih =>
    intro db0 c0
    rw [List.foldl_cons, ih]
    simp [recordOf, List.append_assoc]
    omega

theorem processUnprocessedContent_eq (stops : List String) (tok : String → List String)
    (limit : Nat) (db : Database) :
    processUnprocessedContent stops tok limit db =
      (⟨db.raw, db.processed ++ (fetchUnprocessed limit db).map (recordOf stops tok)⟩,
        (fetchUnprocessed limit db).length) := by
  rw [processUnprocessedContent, processFold_spec]
  simp

/-- C7: the fetch query never returns an item that already has a processed
record (anti-join), and when the batch limit covers every eligible item a
re-run over the resulting database persists zero additional records. -/
theorem batch_rerun_writes_nothing (stops : List String) (tok : String → List String)
    (limit : Nat) (db : Database)
    (hcover : (db.raw.filter (isEligible db)).length ≤ limit) :
    ((fetchUnprocessed limit db).all
      (fun r => db.processed.all (fun p => p.rawContentId ≠ r.id))) = true ∧
    (processUnprocessedContent stops tok limit
      (processUnprocessedContent stops tok limit db).1).2 = 0 := by
  have hfetch : fetchUnprocessed limit db = db.raw.filter (isEligible db) := by
    rw [fetchUnprocessed]
    exact List.take_of_length_le hcover
  constructor
  · rw [List.all_eq_true]
    intro r hr
    have hr2 : r ∈ db.raw.filter (isEligible db) := by
      rw [← hfetch]
      exact hr
    have he := (List.mem_filter.mp hr2).2
    rw [isEligible, Bool.and_eq_true] at he
    exact he.1
  · have hdb1 : (processUnprocessedContent stops tok limit db).1 =
        ⟨db.raw, db.processed ++ (db.raw.filter (isEligible db)).map (recordOf stops tok)⟩ := by
      rw [processUnprocessedContent_eq, hfetch]
    have hfilter2 : ((processUnprocessedContent stops tok limit db).1).raw.filter
        (isEligible (processUnprocessedContent stops tok limit db).1) = [] := by
      rw [List.filter_eq_nil_iff]
      intro r hr hel
      rw [isEligible, Bool.and_eq_true, List.all_eq_true] at hel
      obtain ⟨hanti, hlang⟩ := hel
      have heldb : isEligible db r = true := by
        rw [isEligible, Bool.and_eq_true, List.all_eq_true]
        refine ⟨fun p hp => hanti p ?_, hlang⟩
        rw [hdb1]
        exact List.mem_append_left _ hp
      have hrdb : r ∈ db.raw := by
        rw [hdb1] at hr
        exact hr
      have hrf : r ∈ db.raw.filter (isEligible db) := List.mem_filter.mpr ⟨hrdb, heldb⟩
      have hrec : recordOf stops tok r ∈
          ((processUnprocessedContent stops tok limit db).1).processed := by
        rw [hdb1]
        exact List.mem_append_right _ (List.mem_map_of_mem _ hrf)
      have hcontra := hanti _ hrec
      simp [recordOf] at hcontra
    rw [processUnprocessedContent_eq, fetchUnprocessed, hfilter2]
    simp

/-- Witness for C7 at a two-row database with nothing processed yet. -/
theorem batch_rerun_writes_nothing_witness :
    ((fetchUnprocessed 100 c7Db).all
      (fun r => c7Db.processed.all (fun p => p.rawContentId ≠ r.id))) = true ∧
    (processUnprocessedContent c9Stops c7Tokenize 100
      (processUnprocessedContent c9Stops c7Tokenize 100 c7Db).1).2 = 0 :=
  batch_rerun_writes_nothing c9Stops c7Tokenize 100 c7Db (by decide)

/- ------------------------------------------------------------------ -/
/- C9                                                                  -/
/- ------------------------------------------------------------------ -/

/-- C9 counterexample: nine distinct eligible tokens give nine keywords,
violating the claimed bound of eight (the source keeps
`most_common(10)`). -/
theorem keywords_can_exceed_eight :
    (extractKeywords c9Stops c9Tokens).length = 9 ∧
    ¬((extractKeywords c9Stops c9Tokens).length ≤ 8) := by
  decide

theorem extractKeywords_length_le (stops : List String) (tokens : List String) :
    (extractKeywords stops tokens).length ≤ 10 := by
  rw [extractKeywords, mostCommon, List.length_map]
  exact List.length_take_le _ _

/-- C9, amended: every keywords list the batch processor persists has at
most ten entries (the bound of `most_common(10)`), so a database whose
records all satisfy the bound still satisfies it after a batch run. -/
theorem persisted_keywords_at_most_ten (stops : List String) (tok : String → List String)
    (limit : Nat) (db : Database)
    (h : db.processed.all (fun p => p.keywords.length ≤ 10) = true) :
    ((processUnprocessedContent stops tok limit db).1.processed.all
      (fun p => p.keywords.length ≤ 10)) = true := by
  rw [processUnprocessedContent_eq]
  rw [List.all_append] at *
  rw [h, Bool.true_and, List.all_eq_true]
  intro p hp
  obtain ⟨item, _, rfl⟩ := List.mem_map.mp hp
  simpa [recordOf] using extractKeywords_length_le stops (tok item.content)

/-- Witness for C9's amended theorem: a database whose one record holds nine
keywords still satisfies the ten-keyword bound after a run. -/
theorem persisted_keywords_at_most_ten_witness :
    ((processUnprocessedContent c9Stops c7Tokenize 100 c9Db).1.processed.all
      (fun p => p.keywords.length ≤ 10)) = true :=
  persisted_keywords_at_most_ten c9Stops c7Tokenize 100 c9Db (by decide)

/- ------------------------------------------------------------------ -/
/- C5                                                                  -/
/- ------------------------------------------------------------------ -/

/-- C5 counterexample: the same JSON wrapped in a fence *without* a language
tag is not stripped (the pattern demands the literal `json` tag), so parsing
fails and the function returns nothing with the offending text logged,
instead of the object the claim promises. -/
theorem extract_json_bare_fence_counterexample :
    extractJsonFromContent c5BareInput = (none, some c5BareLog) ∧
    extractJsonFromContent c5BareInput ≠ (some (Json.obj [(keyA, Json.num 1)]), none) := by
  refine ⟨rfl, fun h => ?_⟩
  have h1 : (extractJsonFromContent c5BareInput).1 = some (Json.obj [(keyA, Json.num 1)]) :=
    congrArg Prod.fst h
  rw [show extractJsonFromContent c5BareInput = (none, some c5BareLog) from rfl] at h1
  exact Option.noConfusion h1

/-- C5, amended: `extract_json_from_completion` reads the FIRST choice's
content, strips a leading fence only when it carries the `json` language
tag (plus a trailing bare fence), and parses the remainder: the fenced
example with the tag yields the object.  Whenever the stripped text is
malformed JSON the function returns nothing — not an exception, the model
being a total function — and logs the first 200 characters of that text. -/
theorem extract_json_strips_tagged_fence_or_logs (content : String)
    (h : jsonLoads (stripTrailingFence (stripLeadingJsonFence (pyStrip content.toList))) = none) :
    extractJsonFromContent content =
      (none,
        some (String.mk
          ((stripTrailingFence (stripLeadingJsonFence (pyStrip content.toList))).take 200))) ∧
    extractJsonFromCompletion (some [⟨c5FencedInput⟩]) =
      (some (Json.obj [(keyA, Json.num 1)]), none) := by
  constructor
  · rw [extractJsonFromContent]
    rw [h]
  · rfl

/-- Witness for C5's amended theorem at the bare-fence input. -/
theorem extract_json_strips_tagged_fence_or_logs_witness :
    extractJsonFromContent c5BareInput =
      (none,
        some (String.mk
          ((stripTrailingFence (stripLeadingJsonFence (pyStrip c5BareInput.toList))).take 200))) ∧
    extractJsonFromCompletion (some [⟨c5FencedInput⟩]) =
      (some (Json.obj [(keyA, Json.num 1)]), none) :=
  extract_json_strips_tagged_fence_or_logs c5BareInput rfl
